import Mathlib

/-!
Shallow embedding of `parse_ini.go` (package `ini` of NirmataOSS/go-ini).

The external collaborators are modelled as parameters:
* `gopkg.in/ini.v1` — `ini.Load` either returns a parsed `*ini.File` or a
  `nil` file together with a non-nil error; each call's outcome is passed
  in as a `ParseResult`.  `(*File).MapTo` is passed in as a function from
  the snapshot to an optional decode error.
* `gopkg.in/fsnotify.v1` — the outcomes of `fsnotify.NewWatcher()` and
  `watchman.Add` are passed in as `Option String` (`none` = success).
* `glog` — logging has no observable effect and is elided.

Goroutine spawns (`go func() { ... }`) are recorded in a ghost counter
`loops`; one iteration of each spawned event loop is embedded as a step
function.  The `sync` locks serialise the operations, so the embedding is
the sequential semantics of the lock-ordered operations.
-/

namespace Ini

/-- A parsed INI snapshot: sections in order, each a list of key/value
pairs.  This models the queryable structure built by `gopkg.in/ini.v1`. -/
abbrev IniCfg := List (String × List (String × String))

/-- Association-list lookup keyed by strings (models a Go map read:
a missing key yields the zero value, here `none`). -/
def alookup {β : Type} (k : String) : List (String × β) → Option β
  | [] => none
  | (k0, v) :: rest => if k0 = k then some v else alookup k rest

/-- Models `cfg.Section(sec).Key(key).String()` of the parsing library:
`Section` and `Key` create empty entries for missing names, so a missing
section or key reads as the empty string. -/
def cfgGet (cfg : IniCfg) (sec key : String) : String :=
  match alookup sec cfg with
  | none => ""
  | some s =>
    match alookup key s with
    | none => ""
    | some v => v

/-- The stored value of `key` in section `sec`, when both are present. -/
def keyValue (cfg : IniCfg) (sec key : String) : Option String :=
  match alookup sec cfg with
  | none => none
  | some s => alookup key s

/-- Outcome of one call to the external `ini.Load`: the parsed snapshot,
or the error it returned (in which case the returned `*ini.File` is nil). -/
abbrev ParseResult := Except String IniCfg

/-- The struct `fileDetails` of `parse_ini.go`.  `cfg` is `none` exactly
when the Go field holds a nil `*ini.File`.  `loops` is a ghost field, not
present in the Go struct: it counts the background watch goroutines spawned
for this handle, recording the effect of each `go func`.  The per-handle
`sync.RWMutex` is elided (sequential embedding). -/
structure FileDetails where
  fileName : String
  watch : Bool := false
  cfg : Option IniCfg := none
  loops : Nat := 0
deriving Repr, DecidableEq

/-- `(fd *fileDetails) keepWatch()` (the private method called from
`load`): create an fsnotify watcher (`wRes` is its outcome), spawn the
event loop, add the path to the watcher (`aRes` is its outcome), and set
`fd.watch = true` only when both succeed.  Note the goroutine is spawned
before `Add`, so a failed `Add` still leaves a loop running. -/
def keepWatch (fd : FileDetails) (wRes aRes : Option String) :
    FileDetails × Option String :=
  match wRes with
  | some e => (fd, some e)
  | none =>
    let fd1 := { fd with loops := fd.loops + 1 }
    match aRes with
    | some e => (fd1, some e)
    | none => ({ fd1 with watch := true }, none)

/-- `(fd *fileDetails) load()`.  The Go multiple assignment
`fd.cfg, err = ini.Load(fd.fileName)` stores the returned `*ini.File`
even when it is nil, so a failed parse clears the snapshot.  On success,
when `fd.watch` is still false, `fd.keepWatch()` is called and its error
discarded. -/
def load (fd : FileDetails) (parse : ParseResult) (wRes aRes : Option String) :
    FileDetails × Option String :=
  match parse with
  | .error e => ({ fd with cfg := none }, some e)
  | .ok c =>
    let fd1 := { fd with cfg := some c }
    if !fd1.watch then ((keepWatch fd1 wRes aRes).1, none)
    else (fd1, none)

/-- `(fd *fileDetails) ReadKey(sec, key, defaultVal)`.  Returns `none`
when the Go code would dereference a nil `fd.cfg` (a panic); otherwise
`some` of the returned string. -/
def ReadKey (fd : FileDetails) (sec key defaultVal : String) : Option String :=
  match fd.cfg with
  | none => none
  | some cfg =>
    let v := cfgGet cfg sec key
    if v ≠ "" then some v else some defaultVal

/-- `(fd *fileDetails) update()`: reads `updaters[fd.fileName]` under the
table mutex and spawns every registered callback once, in order; a missing
entry means no dispatch.  Callbacks are identified by numbers; the result
is the list of callbacks dispatched. -/
def update (updaters : List (String × List Nat)) (fd : FileDetails) :
    List Nat :=
  match alookup fd.fileName updaters with
  | none => []
  | some cbs => cbs

/-- An fsnotify event: file name and operation bitmask. -/
structure FsEvent where
  name : String
  op : Nat
deriving Repr, DecidableEq

/-- The `fsnotify.Write` bit (1 <<< 1). -/
def fsnotifyWrite : Nat := 2

/-- One iteration of the event loop spawned inside `keepWatch`: a write
event triggers `fd.load()` (error ignored) then `fd.update()`; any other
event is ignored.  Returns the new handle state, whether `load` was
called, and the callbacks dispatched. -/
def keepWatchLoopStep (fd : FileDetails) (updaters : List (String × List Nat))
    (ev : FsEvent) (parse : ParseResult) (wRes aRes : Option String) :
    FileDetails × Bool × List Nat :=
  if ev.op &&& fsnotifyWrite = fsnotifyWrite then
    let fd1 := (load fd parse wRes aRes).1
    (fd1, true, update updaters fd1)
  else (fd, false, [])

/-- `(fd *fileDetails) newKeepWatch()`: create a watcher, spawn an event
loop, add the path.  It neither checks nor sets `fd.watch`, and wraps the
watcher errors in new messages. -/
def newKeepWatch (fd : FileDetails) (wRes aRes : Option String) :
    FileDetails × Option String :=
  match wRes with
  | some e => (fd, some ("failed to create new watcher for INI file err: " ++ e))
  | none =>
    let fd1 := { fd with loops := fd.loops + 1 }
    match aRes with
    | some e => (fd1, some ("Failed add new watcher for INI file err: " ++ e))
    | none => (fd1, none)

/-- `(fd *fileDetails) KeepWatch()`: delegates to `newKeepWatch`. -/
def KeepWatch (fd : FileDetails) (wRes aRes : Option String) :
    FileDetails × Option String :=
  newKeepWatch fd wRes aRes

/-- One iteration of the event loop spawned inside `newKeepWatch`: a write
event triggers `fd.update()` only — `load` is never called; any other
event is ignored. -/
def newKeepWatchLoopStep (fd : FileDetails)
    (updaters : List (String × List Nat)) (ev : FsEvent) :
    FileDetails × Bool × List Nat :=
  if ev.op &&& fsnotifyWrite = fsnotifyWrite then
    (fd, false, update updaters fd)
  else (fd, false, [])

/-- `(fd *fileDetails) MapContents(v)`: re-reads the file with `ini.Load`
(again storing a nil snapshot on failure, and wrapping the load error),
then runs the external `MapTo` decode, whose error is returned verbatim.
`mapTo` gives the decode outcome for a snapshot (`none` = success). -/
def MapContents (fd : FileDetails) (parse : ParseResult)
    (mapTo : IniCfg → Option String) : FileDetails × Option String :=
  match parse with
  | .error e => ({ fd with cfg := none },
                 some ("failed load config file, err: " ++ e))
  | .ok c => ({ fd with cfg := some c }, mapTo c)

/-- `LoadIniConfig(fileName, c)`: loads the file, builds a fresh
`fileDetails` (watch flag false, no loop spawned), and calls
`MapContents`, wrapping its error.  The file is read twice (once directly,
once inside `MapContents`); both reads are modelled by the same
`ParseResult`. -/
def LoadIniConfig (fileName : String) (parse : ParseResult)
    (mapTo : IniCfg → Option String) : Except String FileDetails :=
  match parse with
  | .error e => .error ("failed load config file, err: " ++ e)
  | .ok c =>
    let f : FileDetails := { fileName := fileName, cfg := some c }
    match MapContents f parse mapTo with
    | (_, some e) => .error ("failed to map cfg err: " ++ e)
    | (f1, none) => .ok f1

/-- The process-wide state: the handle heap (Go handles are pointers, so
two calls share underlying state exactly when they share a heap index)
and the `iniFiler` registry mapping a path to its handle's index. -/
structure GlobalState where
  heap : List FileDetails
  iniFiler : List (String × Nat)
deriving Repr, DecidableEq

/-- `NewIniFile(fileName)`: return the registered handle if one exists;
otherwise build a fresh `fileDetails`, run its initial `load`, and on
success append it to the heap and register it (on error, nothing is
registered and no handle is returned). -/
def NewIniFile (st : GlobalState) (fileName : String) (parse : ParseResult)
    (wRes aRes : Option String) : GlobalState × Except String Nat :=
  match alookup fileName st.iniFiler with
  | some id => (st, .ok id)
  | none =>
    let fd0 : FileDetails := { fileName := fileName }
    match load fd0 parse wRes aRes with
    | (_, some e) => (st, .error e)
    | (fd1, none) =>
      ({ heap := st.heap ++ [fd1],
         iniFiler := (fileName, st.heap.length) :: st.iniFiler },
       .ok st.heap.length)

/-- `(fd *fileDetails) Register(f)`: appends the callback to
`updaters[fd.fileName]` under the table mutex (entry created lazily). -/
def Register (updaters : List (String × List Nat)) (fd : FileDetails)
    (cb : Nat) : List (String × List Nat) :=
  match alookup fd.fileName updaters with
  | none => (fd.fileName, [cb]) :: updaters
  | some cbs =>
    updaters.map fun p => if p.1 = fd.fileName then (p.1, cbs ++ [cb]) else p

/-- The operations that can act on one handle after creation, with the
outcomes of the external collaborators they consume. -/
inductive HandleOp where
  | loadOp (parse : ParseResult) (wRes aRes : Option String)
  | readKeyOp (sec key defaultVal : String)
  | mapContentsOp (parse : ParseResult) (mapTo : IniCfg → Option String)
  | keepWatchOp (wRes aRes : Option String)
  | loopStepOp (updaters : List (String × List Nat)) (ev : FsEvent)
      (parse : ParseResult) (wRes aRes : Option String)
  | newLoopStepOp (updaters : List (String × List Nat)) (ev : FsEvent)

/-- Effect of one operation on the handle state (dispatch lists and
return values dropped). -/
def applyOp (op : HandleOp) (fd : FileDetails) : FileDetails :=
  match op with
  | .loadOp parse wRes aRes => (load fd parse wRes aRes).1
  | .readKeyOp _ _ _ => fd
  | .mapContentsOp parse mapTo => (MapContents fd parse mapTo).1
  | .keepWatchOp wRes aRes => (KeepWatch fd wRes aRes).1
  | .loopStepOp ups ev parse wRes aRes =>
      (keepWatchLoopStep fd ups ev parse wRes aRes).1
  | .newLoopStepOp ups ev => (newKeepWatchLoopStep fd ups ev).1

/-- Number of positions along a trace of operations at which the watch
flag flips from false to true. -/
def watchFlips : List HandleOp → FileDetails → Nat
  | [], _ => 0
  | op :: rest, fd =>
    let fd1 := applyOp op fd
    (if fd.watch = false ∧ fd1.watch = true then 1 else 0) + watchFlips rest fd1

/-! ### Helper lemmas -/

theorem cfgGet_eq_getD (cfg : IniCfg) (sec key : String) :
    cfgGet cfg sec key = (keyValue cfg sec key).getD "" := by
  unfold cfgGet keyValue
  rcases hs : alookup sec cfg with _ | s
  · simp [hs]
  · rcases hk : alookup key s with _ | v <;> simp [hs, hk]

theorem load_fileName (fd : FileDetails) (parse : ParseResult)
    (wRes aRes : Option String) :
    (load fd parse wRes aRes).1.fileName = fd.fileName := by
  unfold load keepWatch
  cases parse with
  | error e => rfl
  | ok c =>
    simp only
    split
    · cases wRes with
      | some e => rfl
      | none => cases aRes <;> rfl
    · rfl

theorem alookup_none_not_mem {β : Type} (k : String) (l : List (String × β))
    (h : alookup k l = none) : k ∉ l.map Prod.fst := by
  induction l with
  | nil => simp
  | cons p rest ih =>
    rw [alookup] at h
    by_cases hk : p.1 = k
    · simp [hk] at h
    · simp only [List.map_cons, List.mem_cons]
      intro hmem
      rcases hmem with hmem | hmem
      · exact hk hmem.symm
      · exact ih (by simpa [hk] using h) hmem

/-! ### C3: ReadKey semantics on a loaded snapshot -/

/-- C3: with a loaded snapshot, ReadKey returns a stored non-empty value
verbatim, and returns the supplied default when the key is absent, the
section is absent (both collapse to `keyValue = none`), or the stored
value is the empty string. -/
theorem c3_readKey_semantics (cfg : IniCfg) (fd : FileDetails)
    (sec key dv : String) (hcfg : fd.cfg = some cfg) :
    (∀ v, keyValue cfg sec key = some v → v ≠ "" →
      ReadKey fd sec key dv = some v) ∧
    ((keyValue cfg sec key = none ∨ keyValue cfg sec key = some "") →
      ReadKey fd sec key dv = some dv) := by
  unfold ReadKey
  rw [hcfg]
  simp only [cfgGet_eq_getD]
  constructor
  · intro v hv hne
    rw [hv]
    simp [hne]
  · intro h
    rcases h with h | h <;> rw [h] <;> simp

/-- Witness for C3, on the spec's scenario `[server] port=8080`. -/
theorem c3_readKey_semantics_witness :
    ReadKey { fileName := "app.ini",
              cfg := some [("server", [("port", "8080")])] }
      "server" "port" "0" = some "8080" ∧
    ReadKey { fileName := "app.ini",
              cfg := some [("server", [("port", "8080")])] }
      "server" "missing" "9090" = some "9090" ∧
    ReadKey { fileName := "app.ini",
              cfg := some [("server", [("port", "8080")])] }
      "other" "port" "1" = some "1" :=
  ⟨(c3_readKey_semantics [("server", [("port", "8080")])] _ "server" "port" "0"
      rfl).1 "8080" (by decide) (by decide),
   (c3_readKey_semantics [("server", [("port", "8080")])] _ "server" "missing"
      "9090" rfl).2 (Or.inl (by decide)),
   (c3_readKey_semantics [("server", [("port", "8080")])] _ "other" "port" "1"
      rfl).2 (Or.inl (by decide))⟩

/-! ### C1 and C2: the snapshot is clobbered on a failed re-parse -/

/-- C1: the claim fails on the code.  After a successful load, a `load`
whose re-parse fails returns the error but stores the nil `*ini.File`
into `fd.cfg` (Go multiple assignment), erasing the previous snapshot;
`MapContents` does the same.  The old data is not readable afterwards:
ReadKey dereferences the nil snapshot. -/
theorem c1_snapshot_clobbered_on_parse_failure :
    (load ((load { fileName := "app.ini" }
        (.ok [("server", [("port", "8080")])]) none none).1)
      (.error "bad syntax") none none).2 = some "bad syntax" ∧
    (load ((load { fileName := "app.ini" }
        (.ok [("server", [("port", "8080")])]) none none).1)
      (.error "bad syntax") none none).1.cfg = none ∧
    (MapContents ((load { fileName := "app.ini" }
        (.ok [("server", [("port", "8080")])]) none none).1)
      (.error "bad syntax") (fun _ => none)).2 =
      some "failed load config file, err: bad syntax" ∧
    (MapContents ((load { fileName := "app.ini" }
        (.ok [("server", [("port", "8080")])]) none none).1)
      (.error "bad syntax") (fun _ => none)).1.cfg = none := by
  refine ⟨rfl, rfl, ?_, rfl⟩
  simp [MapContents, load, keepWatch]

/-- C2: the claim fails on the code.  The state after a successful load
followed by a failed reload is reachable, and in it `fd.cfg` is nil, so
ReadKey dereferences a nil pointer (modelled by `none`) instead of
returning a string. -/
theorem c2_readKey_dereferences_nil_after_failed_reload :
    ReadKey ((load { fileName := "app.ini" }
        (.ok [("server", [("port", "8080")])]) none none).1)
      "server" "port" "0" = some "8080" ∧
    ReadKey ((load ((load { fileName := "app.ini" }
        (.ok [("server", [("port", "8080")])]) none none).1)
      (.error "bad syntax") none none).1)
      "server" "port" "0" = none := by
  exact ⟨by decide, rfl⟩

/-! ### C4 and C10: NewIniFile -/

theorem getElem_append_singleton {α : Type} (l : List α) (a : α) :
    (l ++ [a])[l.length]? = some a := by
  induction l with
  | nil => rfl
  | cons x xs ih =>
    rw [List.cons_append, List.length_cons, List.getElem?_cons_succ]
    exact ih

/-- C4: NewIniFile is idempotent per path.  If the path is registered,
the call returns the registered handle index and changes nothing; and a
registry whose paths are distinct stays that way, so at most one handle
per path is ever stored. -/
theorem c4_newIniFile_idempotent (st : GlobalState) (fn : String)
    (parse : ParseResult) (wRes aRes : Option String) :
    (∀ id, alookup fn st.iniFiler = some id →
      NewIniFile st fn parse wRes aRes = (st, .ok id)) ∧
    ((st.iniFiler.map Prod.fst).Nodup →
      ((NewIniFile st fn parse wRes aRes).1.iniFiler.map Prod.fst).Nodup) := by
  constructor
  · intro id hid
    unfold NewIniFile
    rw [hid]
  · intro hnd
    unfold NewIniFile
    rcases hreg : alookup fn st.iniFiler with _ | id
    · simp only [hreg]
      rcases hld : load { fileName := fn } parse wRes aRes with ⟨fd1, e⟩
      rcases e with _ | e
      · simp only [hld, List.map_cons, List.nodup_cons]
        exact ⟨alookup_none_not_mem fn st.iniFiler hreg, hnd⟩
      · simp only [hld]
        exact hnd
    · simp only [hreg]
      exact hnd

/-- Witness for C4: a registered path is returned as-is, and distinctness
of registry keys is preserved on a fresh open. -/
theorem c4_newIniFile_idempotent_witness :
    NewIniFile { heap := [{ fileName := "a.ini", cfg := some [] }],
                 iniFiler := [("a.ini", 0)] }
      "a.ini" (.error "unreadable") none none =
      ({ heap := [{ fileName := "a.ini", cfg := some [] }],
         iniFiler := [("a.ini", 0)] }, .ok 0) ∧
    (((NewIniFile { heap := [{ fileName := "a.ini", cfg := some [] }],
                    iniFiler := [("a.ini", 0)] }
        "b.ini" (.ok []) none none).1.iniFiler.map Prod.fst).Nodup) :=
  ⟨(c4_newIniFile_idempotent _ "a.ini" (.error "unreadable") none none).1 0
      (by decide),
   (c4_newIniFile_idempotent _ "b.ini" (.ok []) none none).2 (by decide)⟩

/-- C10: when the file parses but watch initialization fails (watcher
creation or Add fails), NewIniFile still returns the handle with a nil
error; the handle is registered, readable, and its watch flag is false,
with no indication of the failure. -/
theorem c10_watch_failure_swallowed (st : GlobalState) (fn : String)
    (c : IniCfg) (wRes aRes : Option String)
    (hreg : alookup fn st.iniFiler = none)
    (hfail : wRes ≠ none ∨ aRes ≠ none) :
    (NewIniFile st fn (.ok c) wRes aRes).2 = .ok st.heap.length ∧
    alookup fn (NewIniFile st fn (.ok c) wRes aRes).1.iniFiler =
      some st.heap.length ∧
    ∃ fd1, (NewIniFile st fn (.ok c) wRes aRes).1.heap[st.heap.length]? =
        some fd1 ∧ fd1.watch = false ∧ fd1.cfg = some c := by
  unfold NewIniFile
  simp only [hreg]
  have hld : ∃ fd1, load { fileName := fn } (.ok c) wRes aRes = (fd1, none) ∧
      fd1.watch = false ∧ fd1.cfg = some c := by
    unfold load keepWatch
    rcases wRes with _ | we
    · rcases aRes with _ | ae
      · rcases hfail with h | h <;> simp at h
      · exact ⟨_, rfl, rfl, rfl⟩
    · exact ⟨_, rfl, rfl, rfl⟩
  rcases hld with ⟨fd1, hld, hw, hc⟩
  simp only [hld]
  refine ⟨trivial, by simp [alookup], fd1, ?_, hw, hc⟩
  exact getElem_append_singleton st.heap fd1

/-- Witness for C10: fresh open of a parsable file with a failing Add. -/
theorem c10_watch_failure_swallowed_witness :
    (NewIniFile { heap := [], iniFiler := [] } "a.ini"
        (.ok [("s", [("k", "v")])]) none (some "inotify add failed")).2 =
      .ok 0 ∧
    alookup "a.ini" (NewIniFile { heap := [], iniFiler := [] } "a.ini"
        (.ok [("s", [("k", "v")])]) none
        (some "inotify add failed")).1.iniFiler = some 0 ∧
    ∃ fd1, (NewIniFile { heap := [], iniFiler := [] } "a.ini"
        (.ok [("s", [("k", "v")])]) none
        (some "inotify add failed")).1.heap[0]? = some fd1 ∧
      fd1.watch = false ∧ fd1.cfg = some [("s", [("k", "v")])] :=
  c10_watch_failure_swallowed { heap := [], iniFiler := [] } "a.ini"
    [("s", [("k", "v")])] none (some "inotify add failed") (by decide)
    (Or.inr (by decide))

/-! ### C5 and C6: the two background event loops -/

/-- C5 counterexample: a qualifying write event consumed by the loop
spawned by the public KeepWatch (newKeepWatch) dispatches the registered
callbacks but never calls load, refuting the claim that every watch loop
calls load on a write event. -/
theorem c5_newLoop_write_no_load :
    (newKeepWatchLoopStep { fileName := "a.ini", cfg := some [] }
      [("a.ini", [0, 1])] { name := "a.ini", op := 2 }).2.1 = false ∧
    (newKeepWatchLoopStep { fileName := "a.ini", cfg := some [] }
      [("a.ini", [0, 1])] { name := "a.ini", op := 2 }).2.2 = [0, 1] :=
  ⟨rfl, rfl⟩

/-- C5 amended: on a qualifying write event, the loop spawned inside
keepWatch calls load (whatever its outcome) and then update, while the
loop spawned inside newKeepWatch calls update only; in both cases update
dispatches exactly the callbacks registered for the handle's path, each
once, in order. -/
theorem c5_write_event_dispatch (fd : FileDetails)
    (ups : List (String × List Nat)) (ev : FsEvent) (parse : ParseResult)
    (wRes aRes : Option String) (cbs : List Nat)
    (hw : ev.op &&& fsnotifyWrite = fsnotifyWrite) :
    keepWatchLoopStep fd ups ev parse wRes aRes =
      ((load fd parse wRes aRes).1, true, update ups fd) ∧
    newKeepWatchLoopStep fd ups ev = (fd, false, update ups fd) ∧
    (alookup fd.fileName ups = some cbs → update ups fd = cbs) := by
  refine ⟨?_, ?_, ?_⟩
  · unfold keepWatchLoopStep
    rw [if_pos hw]
    simp only [update]
    rw [load_fileName]
  · unfold newKeepWatchLoopStep
    rw [if_pos hw]
  · intro h
    unfold update
    rw [h]

/-- Witness for C5 on a concrete write event with a failing reload. -/
theorem c5_write_event_dispatch_witness :
    keepWatchLoopStep { fileName := "a.ini", cfg := some [] }
        [("a.ini", [0, 1])] { name := "a.ini", op := 2 } (.error "bad")
        none none =
      ((load { fileName := "a.ini", cfg := some [] } (.error "bad")
          none none).1, true,
        update [("a.ini", [0, 1])] { fileName := "a.ini", cfg := some [] }) ∧
    update [("a.ini", [0, 1])] { fileName := "a.ini", cfg := some [] } =
      [0, 1] :=
  ⟨(c5_write_event_dispatch { fileName := "a.ini", cfg := some [] }
      [("a.ini", [0, 1])] { name := "a.ini", op := 2 } (.error "bad")
      none none [0, 1] (by decide)).1,
   (c5_write_event_dispatch { fileName := "a.ini", cfg := some [] }
      [("a.ini", [0, 1])] { name := "a.ini", op := 2 } (.error "bad")
      none none [0, 1] (by decide)).2.2 (by decide)⟩

/-- C6: an event whose operation mask does not contain the write bit is
ignored by both loops: the handle state is unchanged, load is not called
and no callback is dispatched. -/
theorem c6_nonwrite_ignored (fd : FileDetails)
    (ups : List (String × List Nat)) (ev : FsEvent) (parse : ParseResult)
    (wRes aRes : Option String)
    (h : ev.op &&& fsnotifyWrite ≠ fsnotifyWrite) :
    keepWatchLoopStep fd ups ev parse wRes aRes = (fd, false, []) ∧
    newKeepWatchLoopStep fd ups ev = (fd, false, []) := by
  unfold keepWatchLoopStep newKeepWatchLoopStep
  rw [if_neg h, if_neg h]
  exact ⟨rfl, rfl⟩

/-- Witness for C6 on a chmod-only event (op mask 16). -/
theorem c6_nonwrite_ignored_witness :
    keepWatchLoopStep { fileName := "a.ini", cfg := some [] }
        [("a.ini", [0])] { name := "a.ini", op := 16 } (.ok []) none none =
      ({ fileName := "a.ini", cfg := some [] }, false, []) ∧
    newKeepWatchLoopStep { fileName := "a.ini", cfg := some [] }
        [("a.ini", [0])] { name := "a.ini", op := 16 } =
      ({ fileName := "a.ini", cfg := some [] }, false, []) :=
  c6_nonwrite_ignored { fileName := "a.ini", cfg := some [] }
    [("a.ini", [0])] { name := "a.ini", op := 16 } (.ok []) none none
    (by decide)

/-! ### C7: KeepWatch is not idempotent -/

/-- C7 counterexample: with a watch loop already running (one spawned
loop), a successful KeepWatch spawns a second loop and reports success,
refuting idempotence. -/
theorem c7_second_loop_spawned :
    (KeepWatch { fileName := "a.ini", watch := true, cfg := some [],
                 loops := 1 } none none).1.loops = 2 ∧
    (KeepWatch { fileName := "a.ini", watch := true, cfg := some [],
                 loops := 1 } none none).2 = none :=
  ⟨rfl, rfl⟩

/-- C7 amended: KeepWatch is not idempotent — whenever watcher creation
succeeds it spawns a fresh event loop regardless of any loop already
running, and it neither checks nor changes the watch flag; it returns an
error exactly when the watch facility cannot be initialized or the path
cannot be added to it. -/
theorem c7_keepWatch_behavior (fd : FileDetails) (wRes aRes : Option String) :
    ((KeepWatch fd wRes aRes).2 = none ↔ (wRes = none ∧ aRes = none)) ∧
    (wRes = none → (KeepWatch fd wRes aRes).1.loops = fd.loops + 1) ∧
    (wRes ≠ none → (KeepWatch fd wRes aRes).1 = fd) ∧
    (KeepWatch fd wRes aRes).1.watch = fd.watch := by
  unfold KeepWatch newKeepWatch
  rcases wRes with _ | we
  · rcases aRes with _ | ae <;> simp
  · simp

/-- Witness for C7: a successful call on a handle with one running loop. -/
theorem c7_keepWatch_behavior_witness :
    (KeepWatch { fileName := "a.ini", watch := true, cfg := some [],
                 loops := 1 } none none).1.loops = 1 + 1 ∧
    ((KeepWatch { fileName := "a.ini", watch := true, cfg := some [],
                  loops := 1 } none none).2 = none ↔
      ((none : Option String) = none ∧ (none : Option String) = none)) :=
  ⟨(c7_keepWatch_behavior { fileName := "a.ini", watch := true,
                            cfg := some [], loops := 1 } none none).2.1 rfl,
   (c7_keepWatch_behavior { fileName := "a.ini", watch := true,
                            cfg := some [], loops := 1 } none none).1⟩

/-! ### C9: LoadIniConfig -/

/-- C9 counterexample: LoadIniConfig does not return the decode error
verbatim — it wraps it in a new message. -/
theorem c9_decode_error_wrapped :
    LoadIniConfig "a.ini" (.ok []) (fun _ => some "boom") =
      .error ("failed to map cfg err: " ++ "boom") ∧
    LoadIniConfig "a.ini" (.ok []) (fun _ => some "boom") ≠
      .error "boom" := by
  constructor
  · rfl
  · intro h
    rw [show LoadIniConfig "a.ini" (.ok []) (fun _ => some "boom") =
        .error ("failed to map cfg err: " ++ "boom") from rfl] at h
    simp at h

/-- C9 amended: LoadIniConfig loads and decodes the file into the target
record, returns no handle on error, wraps load and decode errors in new
messages (not verbatim), and starts no background watching: on success
the handle's watch flag is false and no loop has been spawned. -/
theorem c9_loadIniConfig_behavior (fn : String) (parse : ParseResult)
    (mapTo : IniCfg → Option String) :
    (∀ e, parse = .error e → LoadIniConfig fn parse mapTo =
      .error ("failed load config file, err: " ++ e)) ∧
    (∀ c, parse = .ok c →
      (∀ e, mapTo c = some e → LoadIniConfig fn parse mapTo =
        .error ("failed to map cfg err: " ++ e)) ∧
      (mapTo c = none → LoadIniConfig fn parse mapTo =
        .ok { fileName := fn, watch := false, cfg := some c,
              loops := 0 })) := by
  constructor
  · intro e he
    rw [he]
    rfl
  · intro c hc
    constructor
    · intro e he
      rw [hc]
      unfold LoadIniConfig MapContents
      simp [he]
    · intro hn
      rw [hc]
      unfold LoadIniConfig MapContents
      simp [hn]

/-- Witness for C9: a successful load and decode yields an unwatched
handle. -/
theorem c9_loadIniConfig_behavior_witness :
    LoadIniConfig "a.ini" (.ok [("s", [("k", "v")])]) (fun _ => none) =
      .ok { fileName := "a.ini", watch := false,
            cfg := some [("s", [("k", "v")])], loops := 0 } :=
  ((c9_loadIniConfig_behavior "a.ini" (.ok [("s", [("k", "v")])])
      (fun _ => none)).2 [("s", [("k", "v")])] rfl).2 rfl

/-! ### C8: the watch flag is armed at most once -/

theorem load_watch_mono (fd : FileDetails) (parse : ParseResult)
    (wRes aRes : Option String) (h : fd.watch = true) :
    (load fd parse wRes aRes).1.watch = true := by
  unfold load
  cases parse with
  | error e => exact h
  | ok c => simp [h]

theorem applyOp_watch_mono (op : HandleOp) (fd : FileDetails)
    (h : fd.watch = true) : (applyOp op fd).watch = true := by
  cases op with
  | loadOp parse wRes aRes => exact load_watch_mono fd parse wRes aRes h
  | readKeyOp s k d => exact h
  | mapContentsOp parse mapTo =>
    simp only [applyOp]
    unfold MapContents
    cases parse <;> exact h
  | keepWatchOp wRes aRes =>
    simp only [applyOp]
    unfold KeepWatch newKeepWatch
    rcases wRes with _ | we
    · rcases aRes with _ | ae <;> exact h
    · exact h
  | loopStepOp ups ev parse wRes aRes =>
    simp only [applyOp]
    unfold keepWatchLoopStep
    split
    · exact load_watch_mono fd parse wRes aRes h
    · exact h
  | newLoopStepOp ups ev =>
    simp only [applyOp]
    unfold newKeepWatchLoopStep
    split <;> exact h

theorem watchFlips_zero_of_watch (ops : List HandleOp) (fd : FileDetails)
    (h : fd.watch = true) : watchFlips ops fd = 0 := by
  induction ops generalizing fd with
  | nil => rfl
  | cons op rest ih =>
    simp only [watchFlips]
    rw [if_neg (by simp [h]), ih _ (applyOp_watch_mono op fd h)]

theorem watchFlips_le_one (ops : List HandleOp) (fd : FileDetails) :
    watchFlips ops fd ≤ 1 := by
  induction ops generalizing fd with
  | nil => exact Nat.zero_le 1
  | cons op rest ih =>
    by_cases h : fd.watch = true
    · rw [watchFlips_zero_of_watch _ _ h]
      exact Nat.zero_le 1
    · simp only [watchFlips]
      by_cases h1 : (applyOp op fd).watch = true
      · rw [if_pos ⟨by simpa using h, h1⟩,
            watchFlips_zero_of_watch rest _ h1]
      · rw [if_neg (by simp [h1])]
        simpa using ih (applyOp op fd)

/-- C8: along any trace of operations on a handle, the watch flag flips
to true at most once; the first successful load with a fully successful
keepWatch sets it; and once it is true, a later load keeps it true and
spawns no new watch loop (no re-arming). -/
theorem c8_watch_armed_once (ops : List HandleOp) (fd : FileDetails)
    (parse : ParseResult) (wRes aRes : Option String) (c : IniCfg) :
    watchFlips ops fd ≤ 1 ∧
    (fd.watch = false → (load fd (.ok c) none none).1.watch = true) ∧
    (fd.watch = true → (load fd parse wRes aRes).1.watch = true ∧
      (load fd parse wRes aRes).1.loops = fd.loops) := by
  refine ⟨watchFlips_le_one ops fd, ?_, ?_⟩
  · intro h
    unfold load keepWatch
    simp [h]
  · intro h
    refine ⟨load_watch_mono fd parse wRes aRes h, ?_⟩
    unfold load
    cases parse with
    | error e => rfl
    | ok c2 => simp [h]

/-- Witness for C8: a single-load trace flips the flag at most once; a
first load arms the watcher; a load on an armed handle spawns nothing. -/
theorem c8_watch_armed_once_witness :
    watchFlips [HandleOp.loadOp (.ok []) none none]
      { fileName := "a.ini" } ≤ 1 ∧
    (load { fileName := "a.ini" } (.ok []) none none).1.watch = true ∧
    (load { fileName := "a.ini", watch := true, cfg := some [],
            loops := 1 }
        (.error "gone") none none).1.loops = 1 :=
  ⟨(c8_watch_armed_once [HandleOp.loadOp (.ok []) none none]
      { fileName := "a.ini" } (.ok []) none none []).1,
   (c8_watch_armed_once [] { fileName := "a.ini" } (.ok []) none none
      []).2.1 rfl,
   ((c8_watch_armed_once [] { fileName := "a.ini", watch := true,
                              cfg := some [], loops := 1 }
      (.error "gone") none none []).2.2 rfl).2⟩

end Ini
